import Mathlib

/-!
# prometheus-gitlab-license-exporter: a shallow embedding of `main.go`

The exporter answers each scrape by calling `Collect`, which fetches the
license document of a GitLab instance and republishes nine of its fields as
gauges.  This file embeds `main.go` and the parts of the Go standard library
and of `client_golang` that its behaviour depends on, and proves the
properties the specification states about it.

Conventions of the embedding:

* Go `string` values are Lean `String`s; byte-indexed library routines are
  run on the character list (every byte they accept is ASCII).
* `int`, `int64` and `uint64` values are `Int`s, wrapped explicitly with
  `wrapInt64` and `wrapUint64` where the Go code converts between them.
* `float64` values are rationals: the program never does arithmetic on
  them, every value it handles is finite (`encoding/json` rejects numbers
  that overflow), and the only conversion, `float64(int64)`, is exact on
  the range `time.Parse` can produce (below `2^53` in magnitude).
-/

namespace GitlabExporter

/-- Go `float64`, restricted to the finite values this program handles. -/
abbrev Float64 := ℚ

/-! ## Package `time`: what `time.Parse("2006-01-02", s)` and `Time.Unix` run -/

/-- Conversion to `int64` (two's complement wrap-around). -/
def wrapInt64 (x : Int) : Int := (x + 9223372036854775808) % 18446744073709551616 - 9223372036854775808

/-- Conversion to `uint64` (wrap-around). -/
def wrapUint64 (x : Int) : Int := x % 18446744073709551616

/-- Byte test `isDigit(s, i)` of `time/format.go`: index in range and an ASCII digit there. -/
def isDigit (s : List Char) (i : Nat) : Bool :=
  match s.get? i with
  | none => false
  | some c => decide (48 ≤ c.toNat) && decide (c.toNat ≤ 57)

/-- Value `int(s[i] - '0')` of the digit at index `i`. -/
def digitAt (s : List Char) (i : Nat) : Int :=
  match s.get? i with
  | none => 0
  | some c => (c.toNat : Int) - 48

/-- Function `getnum(s, fixed)` of `time/format.go`: a one- or two-digit number; with
`fixed` exactly two digits.  Returns `none` for `errBad`. -/
def getnum (s : List Char) (fixed : Bool) : Option (Int × List Char) :=
  if !isDigit s 0 then none
  else if !isDigit s 1 then
    if fixed then none else some (digitAt s 0, s.drop 1)
  else some (digitAt s 0 * 10 + digitAt s 1, s.drop 2)

/-- Loop of `leadingInt` in `time/format.go`, with the accumulator `x`: consumes leading
digits, failing (`none`) on overflow past `1<<63`. -/
def leadingIntLoop : List Char → Int → Option (Int × List Char)
  | [], x => some (x, [])
  | c :: rest, x =>
    if c.toNat < 48 ∨ 57 < c.toNat then some (x, c :: rest)
    else if x > 9223372036854775808 / 10 then none
    else
      let x1 := x * 10 + ((c.toNat : Int) - 48)
      if x1 > 9223372036854775808 then none else leadingIntLoop rest x1

/-- Function `leadingInt` of `time/format.go`. -/
def leadingInt (s : List Char) : Option (Int × List Char) := leadingIntLoop s 0

/-- Function `atoi` of `time/format.go`: optional sign, then digits only. -/
def atoi (s : List Char) : Option Int :=
  let neg := decide (s.head? = some '-')
  let s1 := if s.head? = some '-' ∨ s.head? = some '+' then s.drop 1 else s
  match leadingInt s1 with
  | none => none
  | some (q, rem) => if rem ≠ [] then none else some (if neg then -q else q)

/-- Function `skip(value, prefix)` of `time/format.go` for the one-byte prefix `"-"`
(the only literal text in the layout): the value must start with it. -/
def skipDash (value : List Char) : Option (List Char) :=
  match value with
  | [] => none
  | c :: rest => if c ≠ '-' then none else some rest

/-- Function `isLeap` of `time/time.go`. -/
def isLeap (year : Int) : Bool :=
  decide (year % 4 = 0) && (decide (year % 100 ≠ 0) || decide (year % 400 = 0))

/-- Table `daysBefore` of `time/time.go`: days in a non-leap year before the end of month `m`. -/
def daysBefore (m : Int) : Int :=
  if m = 0 then 0
  else if m = 1 then 31
  else if m = 2 then 31 + 28
  else if m = 3 then 31 + 28 + 31
  else if m = 4 then 31 + 28 + 31 + 30
  else if m = 5 then 31 + 28 + 31 + 30 + 31
  else if m = 6 then 31 + 28 + 31 + 30 + 31 + 30
  else if m = 7 then 31 + 28 + 31 + 30 + 31 + 30 + 31
  else if m = 8 then 31 + 28 + 31 + 30 + 31 + 30 + 31 + 31
  else if m = 9 then 31 + 28 + 31 + 30 + 31 + 30 + 31 + 31 + 30
  else if m = 10 then 31 + 28 + 31 + 30 + 31 + 30 + 31 + 31 + 30 + 31
  else if m = 11 then 31 + 28 + 31 + 30 + 31 + 30 + 31 + 31 + 30 + 31 + 30
  else 31 + 28 + 31 + 30 + 31 + 30 + 31 + 31 + 30 + 31 + 30 + 31

/-- Function `daysIn(m, year)` of `time/time.go`. -/
def daysIn (m : Int) (year : Int) : Int :=
  if m = 2 ∧ isLeap year = true then 29 else daysBefore m - daysBefore (m - 1)

/-- Go `time.Time`, without the location pointer: `wall` holds the nanoseconds, `ext` the
seconds since January 1, year 1.  The zero value `Time{}` has both fields zero. -/
structure Time where
  wall : Int
  ext : Int
  deriving DecidableEq, Repr

/-- The zero value `Time{}`. -/
def Time.zero : Time := ⟨0, 0⟩

/-- Constant `unixToInternal` of `time/time.go`: seconds from year 1 to 1970. -/
def unixToInternal : Int := (1969 * 365 + 1969 / 4 - 1969 / 100 + 1969 / 400) * 86400

/-- Constant `internalToUnix` of `time/time.go`. -/
def internalToUnix : Int := -unixToInternal

/-- Constant `absoluteZeroYear` of `time/time.go`. -/
def absoluteZeroYear : Int := -292277022399

/-- Constant `absoluteToInternal` of `time/time.go`. -/
def absoluteToInternal : Int := -9223371966579724800

/-- Method `Time.Unix`: seconds since January 1, 1970 UTC (no monotonic reading is set). -/
def Time.Unix (t : Time) : Int := wrapInt64 (t.ext + internalToUnix)

/-- Function `unixTime(sec, nsec)` of `time/time.go`. -/
def unixTime (sec nsec : Int) : Time := ⟨wrapUint64 nsec, wrapInt64 (sec + unixToInternal)⟩

/-- Function `norm(hi, lo, base)` of `time/time.go`. -/
def norm (hi lo base : Int) : Int × Int :=
  let (hi1, lo1) :=
    if lo < 0 then
      let n := (-lo - 1) / base + 1
      (hi - n, lo + n * base)
    else (hi, lo)
  if lo1 ≥ base then
    let n := lo1 / base
    (hi1 + n, lo1 - n * base)
  else (hi1, lo1)

/-- Function `daysSinceEpoch(year)` of `time/time.go`: days from the absolute epoch to the
start of `year`, by 400-, 100-, 4- and 1-year cycles. -/
def daysSinceEpoch (year : Int) : Int :=
  let y0 := wrapUint64 (wrapInt64 (year - absoluteZeroYear))
  let n400 := y0 / 400
  let y1 := y0 - 400 * n400
  let d1 := 146097 * n400
  let n100 := y1 / 100
  let y2 := y1 - 100 * n100
  let d2 := d1 + 36524 * n100
  let n4 := y2 / 4
  let y3 := y2 - 4 * n4
  let d3 := d2 + 1461 * n4
  d3 + 365 * y3

/-- Function `time.Date(year, month, day, 0, 0, 0, 0, time.UTC)`: the call `Parse` ends
with for a date-only layout.  UTC needs no zone lookup. -/
def Date (year month day : Int) : Time :=
  let (year1, m) := norm year (month - 1) 12
  let month1 := m + 1
  let (sec, nsec) := norm 0 0 1000000000
  let (min, sec1) := norm 0 sec 60
  let (hour, min1) := norm 0 min 60
  let (day1, hour1) := norm day hour 24
  let d0 := daysSinceEpoch year1
  let d1 := wrapUint64 (d0 + daysBefore (month1 - 1))
  let d2 := if isLeap year1 = true ∧ month1 ≥ 3 then wrapUint64 (d1 + 1) else d1
  let d3 := wrapUint64 (d2 + wrapUint64 (day1 - 1))
  let abs0 := wrapUint64 (d3 * 86400)
  let abs := wrapUint64 (abs0 + wrapUint64 (hour1 * 3600 + min1 * 60 + sec1))
  let unix := wrapInt64 (wrapInt64 abs + (absoluteToInternal + internalToUnix))
  unixTime unix nsec

/-- Function `time.Parse` specialised to the layout `"2006-01-02"`, whose chunks are
`stdLongYear`, `"-"`, `stdZeroMonth`, `"-"`, `stdZeroDay`.  Returns the parsed time and
whether an error was returned; as in Go the time is `Time{}` whenever there is an error. -/
def timeParse (value : List Char) : Time × Bool :=
  -- stdLongYear
  if value.length < 4 ∨ isDigit value 0 = false then (Time.zero, true) else
  match atoi (value.take 4) with
  | none => (Time.zero, true)
  | some year =>
  -- "-" then stdZeroMonth
  match skipDash (value.drop 4) with
  | none => (Time.zero, true)
  | some v1 =>
  match getnum v1 true with
  | none => (Time.zero, true)
  | some (month, v2) =>
  if month ≤ 0 ∨ 12 < month then (Time.zero, true) else
  -- "-" then stdZeroDay
  match skipDash v2 with
  | none => (Time.zero, true)
  | some v3 =>
  match getnum v3 true with
  | none => (Time.zero, true)
  | some (day, v4) =>
  -- end of layout: no text may remain
  if v4 ≠ [] then (Time.zero, true) else
  -- validate the day of the month
  if day < 1 ∨ day > daysIn month year then (Time.zero, true) else
  (Date year month day, false)

/-! ## `main.go`: the two value conversions -/

/-- Function `parseStringDateTofloat` of `main.go`: the parse error is only logged, and the
Unix time of whatever `time.Parse` returned is converted to `float64`. -/
def parseStringDateTofloat (date : String) : Float64 :=
  let (ca, _err) := timeParse date.toList
  ((ca.Unix : Int) : ℚ)

/-- Arm of the `switch expired` statement in `isExpired` that is taken: the case
expressions are compared with the tag in source order, `default` when none is equal. -/
inductive SwitchArm where
  | caseFalse
  | caseTrue
  | default
  deriving DecidableEq, Repr

/-- Selection of the arm of `switch expired { case false: … case true: … default: … }`. -/
def isExpiredArm (expired : Bool) : SwitchArm :=
  if expired = false then SwitchArm.caseFalse
  else if expired = true then SwitchArm.caseTrue
  else SwitchArm.default

/-- Function `isExpired` of `main.go`. -/
def isExpired (expired : Bool) : Float64 :=
  match isExpiredArm expired with
  | SwitchArm.caseFalse => 0
  | SwitchArm.caseTrue => 1
  | SwitchArm.default => 0

/-! ## Library behaviour taken as a parameter -/

/-- Behaviour of the standard library that the embedding does not spell out. -/
structure Platform where
  /-- Function `foldRune` of `encoding/json` on a non-ASCII rune: the least rune of its
  `unicode.SimpleFold` orbit. -/
  foldRune : Char → Char
  /-- Whether `net/url.Parse` accepts a raw URL that has passed the control-character
  check and whose scheme has been split off without error (authority, path escapes,
  fragment). -/
  urlRestOk : String → Bool

/-! ## Package `encoding/json`: `Unmarshal` into `gitlabLicenseMetrics` -/

/-- A syntactically valid JSON text.  A number carries what `strconv.ParseFloat(lit, 64)`
returns for its literal: the value, or `none` when it is out of range. -/
inductive JSON where
  | null
  | bool (b : Bool)
  | number (f : Option Float64)
  | string (s : String)
  | array (items : List JSON)
  | object (members : List (String × JSON))

/-- Type `gitlabLicenseMetrics` of `main.go`. -/
structure gitlabLicenseMetrics where
  ID : Float64
  StartsAt : String
  ExpiresAt : String
  HistoricalMax : Float64
  MaximumUserCount : Float64
  Expired : Bool
  Overage : Float64
  UserLimit : Float64
  ActiveUsers : Float64
  deriving DecidableEq, Repr

/-- The zero value of `gitlabLicenseMetrics`, as declared by `var g gitlabLicenseMetrics`. -/
def gitlabLicenseMetrics.zero : gitlabLicenseMetrics :=
  ⟨0, "", "", 0, 0, false, 0, 0, 0⟩

/-- The nine fields of `gitlabLicenseMetrics`, in declaration order. -/
inductive Field where
  | ID
  | StartsAt
  | ExpiresAt
  | HistoricalMax
  | MaximumUserCount
  | Expired
  | Overage
  | UserLimit
  | ActiveUsers
  deriving DecidableEq, Repr

/-- The `json:"…"` tag of each field. -/
def Field.jsonName : Field → String
  | Field.ID => "id"
  | Field.StartsAt => "starts_at"
  | Field.ExpiresAt => "expires_at"
  | Field.HistoricalMax => "historical_max"
  | Field.MaximumUserCount => "maximum_user_count"
  | Field.Expired => "expired"
  | Field.Overage => "overage"
  | Field.UserLimit => "user_limit"
  | Field.ActiveUsers => "active_users"

/-- The struct fields in declaration order. -/
def fieldList : List Field :=
  [Field.ID, Field.StartsAt, Field.ExpiresAt, Field.HistoricalMax, Field.MaximumUserCount,
   Field.Expired, Field.Overage, Field.UserLimit, Field.ActiveUsers]

/-- Errors `json.Unmarshal` can return here: a syntax error, or an `UnmarshalTypeError`
naming the JSON value kind that did not fit. -/
inductive JsonError where
  | syntaxError
  | unmarshalType (value : String)
  deriving DecidableEq, Repr

/-- Function `foldName` of `encoding/json/fold.go`: ASCII letters to upper case, other
runes through `foldRune`. -/
def foldName (P : Platform) (name : String) : String :=
  String.mk (name.toList.map fun c =>
    if c.toNat < 128 then (if 97 ≤ c.toNat ∧ c.toNat ≤ 122 then Char.ofNat (c.toNat - 32) else c)
    else P.foldRune c)

/-- Field lookup of `decodeState.object`: an exact match of the key with a tag, else the
first field whose folded tag equals the folded key. -/
def lookupField (P : Platform) (key : String) : Option Field :=
  match fieldList.find? (fun f => f.jsonName == key) with
  | some f => some f
  | none => fieldList.find? (fun f => foldName P f.jsonName == foldName P key)

/-- Name of the kind of a JSON value in an `UnmarshalTypeError`. -/
def JSON.kindName : JSON → String
  | JSON.null => "null"
  | JSON.bool _ => "bool"
  | JSON.number _ => "number"
  | JSON.string _ => "string"
  | JSON.array _ => "array"
  | JSON.object _ => "object"

/-- Storing a JSON value into a `float64` field: `null` is ignored, a number in range is
stored, anything else is an `UnmarshalTypeError` and leaves the field alone. -/
def storeFloat (v : JSON) (old : Float64) : Float64 × Option JsonError :=
  match v with
  | JSON.null => (old, none)
  | JSON.number (some x) => (x, none)
  | other => (old, some (JsonError.unmarshalType other.kindName))

/-- Storing a JSON value into a `string` field. -/
def storeString (v : JSON) (old : String) : String × Option JsonError :=
  match v with
  | JSON.null => (old, none)
  | JSON.string s => (s, none)
  | other => (old, some (JsonError.unmarshalType other.kindName))

/-- Storing a JSON value into a `bool` field. -/
def storeBool (v : JSON) (old : Bool) : Bool × Option JsonError :=
  match v with
  | JSON.null => (old, none)
  | JSON.bool b => (b, none)
  | other => (old, some (JsonError.unmarshalType other.kindName))

/-- Decoding one member value into the field its key selected. -/
def storeField (g : gitlabLicenseMetrics) (f : Field) (v : JSON) :
    gitlabLicenseMetrics × Option JsonError :=
  match f with
  | Field.ID => let r := storeFloat v g.ID; ({ g with ID := r.1 }, r.2)
  | Field.StartsAt => let r := storeString v g.StartsAt; ({ g with StartsAt := r.1 }, r.2)
  | Field.ExpiresAt => let r := storeString v g.ExpiresAt; ({ g with ExpiresAt := r.1 }, r.2)
  | Field.HistoricalMax =>
    let r := storeFloat v g.HistoricalMax; ({ g with HistoricalMax := r.1 }, r.2)
  | Field.MaximumUserCount =>
    let r := storeFloat v g.MaximumUserCount; ({ g with MaximumUserCount := r.1 }, r.2)
  | Field.Expired => let r := storeBool v g.Expired; ({ g with Expired := r.1 }, r.2)
  | Field.Overage => let r := storeFloat v g.Overage; ({ g with Overage := r.1 }, r.2)
  | Field.UserLimit => let r := storeFloat v g.UserLimit; ({ g with UserLimit := r.1 }, r.2)
  | Field.ActiveUsers =>
    let r := storeFloat v g.ActiveUsers; ({ g with ActiveUsers := r.1 }, r.2)

/-- Loop of `decodeState.object` over the members of a JSON object, in order: a member
whose key selects no field is skipped; the first error is kept (`saveError`) and decoding
goes on. -/
def decodeMembers (P : Platform) :
    List (String × JSON) → gitlabLicenseMetrics × Option JsonError →
    gitlabLicenseMetrics × Option JsonError
  | [], st => st
  | (key, v) :: rest, (g, saved) =>
    match lookupField P key with
    | none => decodeMembers P rest (g, saved)
    | some f =>
      let r := storeField g f v
      decodeMembers P rest (r.1, if saved.isSome then saved else r.2)

/-- Call `json.Unmarshal(body, &g)` on a zero-valued `g`.  The body is given scanned:
`none` when the bytes are not one valid JSON text, which `Unmarshal` rejects before
storing anything.  Returns `g` afterwards and the error. -/
def Unmarshal (P : Platform) (body : Option JSON) : gitlabLicenseMetrics × Option JsonError :=
  match body with
  | none => (gitlabLicenseMetrics.zero, some JsonError.syntaxError)
  | some JSON.null => (gitlabLicenseMetrics.zero, none)
  | some (JSON.object members) => decodeMembers P members (gitlabLicenseMetrics.zero, none)
  | some other => (gitlabLicenseMetrics.zero, some (JsonError.unmarshalType other.kindName))

/-! ## Packages `net/url` and `net/http`: building the request -/

/-- Function `stringContainsCTLByte` of `net/url`: a byte below `' '` or equal to `0x7f`. -/
def stringContainsCTLByte (s : List Char) : Bool :=
  s.any fun c => decide (c.toNat < 32) || decide (c.toNat = 127)

/-- Loop of `getScheme` in `net/url/url.go` at byte index `i`: `none` is the error
`missing protocol scheme`, otherwise the scheme and the rest. -/
def getSchemeLoop (rawURL : List Char) : List Char → Nat → Option (List Char × List Char)
  | [], _ => some ([], rawURL)
  | c :: rest, i =>
    if (97 ≤ c.toNat ∧ c.toNat ≤ 122) ∨ (65 ≤ c.toNat ∧ c.toNat ≤ 90) then
      getSchemeLoop rawURL rest (i + 1)
    else if (48 ≤ c.toNat ∧ c.toNat ≤ 57) ∨ c = '+' ∨ c = '-' ∨ c = '.' then
      if i = 0 then some ([], rawURL) else getSchemeLoop rawURL rest (i + 1)
    else if c = ':' then
      if i = 0 then none else some (rawURL.take i, rawURL.drop (i + 1))
    else some ([], rawURL)

/-- Function `getScheme` of `net/url/url.go`. -/
def getScheme (rawURL : List Char) : Option (List Char × List Char) :=
  getSchemeLoop rawURL rawURL 0

/-- Function `url.Parse`, as far as it decides between a URL and an error: the fragment is
cut off, control characters and a missing scheme are rejected, and the remaining checks
are those of the platform. -/
def urlParse (P : Platform) (rawURL : String) : Except String String :=
  let u := rawURL.toList.takeWhile (fun c => c ≠ '#')
  if stringContainsCTLByte u then Except.error "net/url: invalid control character in URL"
  else if u = ['*'] then
    (if P.urlRestOk rawURL then Except.ok rawURL else Except.error "parse error")
  else
    match getScheme u with
    | none => Except.error "missing protocol scheme"
    | some _ =>
      if P.urlRestOk rawURL then Except.ok rawURL else Except.error "parse error"

/-- Go `http.Request`, with the fields this program sets. -/
structure Request where
  Method : String
  URL : String
  Header : List (String × String)
  deriving DecidableEq, Repr

/-- Function `http.NewRequest("GET", url, nil)`: the method is valid, so the only error is
that of `url.Parse`, returned together with a nil request. -/
def NewRequest (P : Platform) (url : String) : Except String Request :=
  match urlParse P url with
  | Except.error err => Except.error err
  | Except.ok u => Except.ok ⟨"GET", u, []⟩

/-- Method `Header.Add`. -/
def Request.addHeader (req : Request) (key value : String) : Request :=
  { req with Header := req.Header ++ [(key, value)] }

/-- What is left of an `http.Response` once `io.ReadAll` has run: the status code, the
error of the read if any, and the bytes read, scanned as JSON (`none` when they are not
one valid JSON text). -/
structure Response where
  StatusCode : Int
  readErr : Option String
  body : Option JSON

/-- What `client.Do(req)` returns: a transport error, or a response. -/
inductive DoResult where
  | error (err : String)
  | response (resp : Response)

/-! ## Package `prometheus`: descriptors and constant metrics -/

/-- Constant `namespace` of `main.go`. -/
def metricNamespace : String := "gitlab_license"

/-- Function `prometheus.BuildFQName`. -/
def BuildFQName (ns subsystem name : String) : String :=
  if name = "" then ""
  else if ns ≠ "" ∧ subsystem ≠ "" then ns ++ "_" ++ subsystem ++ "_" ++ name
  else if ns ≠ "" then ns ++ "_" ++ name
  else if subsystem ≠ "" then subsystem ++ "_" ++ name
  else name

/-- Function `model.IsValidMetricName`: non-empty, bytes in `[a-zA-Z0-9_:]`, no leading digit. -/
def IsValidMetricName (n : String) : Bool :=
  !n.toList.isEmpty &&
  (n.toList.enum.all fun (i, b) =>
    decide (97 ≤ b.toNat ∧ b.toNat ≤ 122) || decide (65 ≤ b.toNat ∧ b.toNat ≤ 90) ||
    decide (b = '_') || decide (b = ':') ||
    (decide (48 ≤ b.toNat ∧ b.toNat ≤ 57) && decide (i > 0)))

/-- Go `prometheus.Desc` for a descriptor without labels: name, help, and whether
construction recorded an error. -/
structure Desc where
  fqName : String
  help : String
  err : Bool
  deriving DecidableEq, Repr

/-- Function `prometheus.NewDesc(fqName, help, nil, nil)`. -/
def NewDesc (fqName help : String) : Desc :=
  ⟨fqName, help, !IsValidMetricName fqName⟩

/-- Go `prometheus.ValueType`. -/
inductive ValueType where
  | CounterValue
  | GaugeValue
  | UntypedValue
  deriving DecidableEq, Repr

/-- A constant metric: what is sent on the channel of `Collect`. -/
structure Metric where
  desc : Desc
  valType : ValueType
  value : Float64
  deriving DecidableEq, Repr

/-- Function `prometheus.MustNewConstMetric(desc, valueType, value)` with no label values:
`none` is the panic on a descriptor that carries an error. -/
def MustNewConstMetric (desc : Desc) (valueType : ValueType) (value : Float64) : Option Metric :=
  if desc.err then none else some ⟨desc, valueType, value⟩

/-! ## `main.go`: the collector -/

/-- Type `gitlabLicenseCollector` of `main.go`. -/
structure gitlabLicenseCollector where
  id : Desc
  startsAt : Desc
  expiresAt : Desc
  historicalMax : Desc
  maximumUserCount : Desc
  expired : Desc
  overage : Desc
  userLimit : Desc
  activeUsers : Desc
  deriving DecidableEq, Repr

/-- Function `newGitlabLicenseCollector` of `main.go`. -/
def newGitlabLicenseCollector : gitlabLicenseCollector where
  id := NewDesc (BuildFQName metricNamespace "" "id") "ID of the license"
  startsAt := NewDesc (BuildFQName metricNamespace "" "starts_at") "Date the license starts at"
  expiresAt := NewDesc (BuildFQName metricNamespace "" "expires_at") "Date the license expires at"
  historicalMax := NewDesc (BuildFQName metricNamespace "" "historical_max")
    "This is the highest peak of users on your installation since the license started"
  maximumUserCount := NewDesc (BuildFQName metricNamespace "" "maximum_user_count")
    "This is the highest peak of users on your installation since the license started"
  expired := NewDesc (BuildFQName metricNamespace "" "expired") "Expiry status of the license"
  overage := NewDesc (BuildFQName metricNamespace "" "overage")
    "The difference between the number of billable users and the licensed number of users"
  userLimit := NewDesc (BuildFQName metricNamespace "" "user_limit")
    "The number of users the license is licensed for"
  activeUsers := NewDesc (BuildFQName metricNamespace "" "active_users")
    "Current active users that consume a license"

/-- Method `Describe` of `main.go`: the descriptors sent, in order. -/
def Describe (collector : gitlabLicenseCollector) : List Desc :=
  [collector.id, collector.startsAt, collector.expiresAt, collector.historicalMax,
   collector.maximumUserCount, collector.expired, collector.overage, collector.userLimit,
   collector.activeUsers]

/-- What one scrape finds: the two environment variables as `os.LookupEnv` reports them
(`none` when unset) and the answer of the remote end to the request. -/
structure Scrape where
  GITLAB_URL : Option String
  GITLAB_TOKEN : Option String
  remote : Request → DoResult

/-- Levels of the `logrus` calls in `main.go`. -/
inductive LogLevel where
  | Info
  | Warn
  | Fatal
  deriving DecidableEq, Repr

/-- How a call of `Collect` ends. -/
inductive Ending where
  /-- The function returns to its caller. -/
  | returned
  /-- The process exits with this status (`log.Fatal` calls `os.Exit(1)`). -/
  | exited (status : Int)
  /-- A run-time panic (nil pointer dereference, or `MustNewConstMetric`). -/
  | panicked
  deriving DecidableEq, Repr

/-- Observable result of one call of `Collect`: the metrics sent on the channel, in
order, the log lines written, and how the call ended. -/
structure Outcome where
  sent : List Metric
  log : List (LogLevel × String)
  ending : Ending
  deriving DecidableEq, Repr

/-- Function `validateEnvVars` of `main.go`: the two values, or the message of the
`log.Fatal` call that ends the process. -/
def validateEnvVars (w : Scrape) : Except String (String × String) :=
  match w.GITLAB_URL with
  | none => Except.error "GITLAB_URL environment variable is not set"
  | some gitlabURL =>
    match w.GITLAB_TOKEN with
    | none => Except.error "GITLAB_TOKEN environment variable is not set"
    | some gitlabToken => Except.ok (gitlabURL, gitlabToken)

/-- The statements `ch <- prometheus.MustNewConstMetric(desc, prometheus.GaugeValue, v)`
run in order: the metrics sent so far, and whether one of the calls panicked. -/
def sendGauges : List (Desc × Float64) → List Metric → List Metric × Bool
  | [], sent => (sent, false)
  | (desc, v) :: rest, sent =>
    match MustNewConstMetric desc ValueType.GaugeValue v with
    | none => (sent, true)
    | some m => sendGauges rest (sent ++ [m])

/-- The log line `parseStringDateTofloat` writes for a date (`log.Info(err)` when
`time.Parse` fails). -/
def dateLog (date : String) : List (LogLevel × String) :=
  if (timeParse date.toList).2 then [(LogLevel.Info, "parsing time: " ++ date)] else []

/-- Method `Collect` of `main.go`. -/
def Collect (P : Platform) (collector : gitlabLicenseCollector) (w : Scrape) : Outcome :=
  match validateEnvVars w with
  | Except.error msg => ⟨[], [(LogLevel.Fatal, msg)], Ending.exited 1⟩
  | Except.ok (gitlabURL, gitlabToken) =>
    match NewRequest P (gitlabURL ++ "/api/v4/license") with
    | Except.error err =>
      -- the error is logged, then `req.Header` is read through the nil request
      ⟨[], [(LogLevel.Info, err)], Ending.panicked⟩
    | Except.ok req0 =>
      let req := req0.addHeader "Authorization" ("Bearer " ++ gitlabToken)
      match w.remote req with
      | DoResult.error err => ⟨[], [(LogLevel.Warn, err)], Ending.returned⟩
      | DoResult.response resp =>
        if resp.StatusCode = 401 then
          ⟨[], [(LogLevel.Info, "Unauthorized - Status Code401")], Ending.returned⟩
        else
          let logRead : List (LogLevel × String) :=
            match resp.readErr with
            | some err => [(LogLevel.Info, err)]
            | none => []
          let (g, err) := Unmarshal P resp.body
          let logJson : List (LogLevel × String) :=
            match err with
            | some _ => [(LogLevel.Info, "unmarshal error")]
            | none => []
          let (sent, panic) := sendGauges
            [(collector.id, g.ID),
             (collector.startsAt, parseStringDateTofloat g.StartsAt),
             (collector.expiresAt, parseStringDateTofloat g.ExpiresAt),
             (collector.historicalMax, g.HistoricalMax),
             (collector.maximumUserCount, g.MaximumUserCount),
             (collector.expired, isExpired g.Expired),
             (collector.overage, g.Overage),
             (collector.userLimit, g.UserLimit),
             (collector.activeUsers, g.ActiveUsers)] []
          ⟨sent,
           logRead ++ logJson ++ [(LogLevel.Info, "Metrics retrieved")] ++
             dateLog g.StartsAt ++ dateLog g.ExpiresAt,
           if panic then Ending.panicked else Ending.returned⟩

/-! ## The notions the specification is stated in -/

/-- Gregorian leap-year rule. -/
def isLeapYear (y : Nat) : Bool :=
  decide (y % 4 = 0) && (decide (y % 100 ≠ 0) || decide (y % 400 = 0))

/-- Number of days of year `y`. -/
def yearLength (y : Nat) : Int := if isLeapYear y then 366 else 365

/-- Number of days of month `m` (1 to 12) of year `y`. -/
def monthLength (y : Nat) (m : Nat) : Nat :=
  if m = 2 then (if isLeapYear y then 29 else 28)
  else if m = 4 ∨ m = 6 ∨ m = 9 ∨ m = 11 then 30
  else 31

/-- Days of year `y` that lie before its month `m`: the lengths of months `1` to `m - 1`. -/
def daysBeforeMonth (y : Nat) : Nat → Int
  | 0 => 0
  | 1 => 0
  | m + 2 => daysBeforeMonth y (m + 1) + monthLength y (m + 1)

/-- Days from 1 January 1970 to 1 January of year `1970 + n`, counted year by year. -/
def daysUp : Nat → Int
  | 0 => 0
  | n + 1 => daysUp n + yearLength (1970 + n)

/-- Days from 1 January of year `1970 - n` to 1 January 1970, counted year by year. -/
def daysDown : Nat → Int
  | 0 => 0
  | n + 1 => daysDown n + yearLength (1970 - (n + 1))

/-- Days from 1 January 1970 to 1 January of year `y` (negative before 1970). -/
def daysToYearStart (y : Nat) : Int :=
  if 1970 ≤ y then daysUp (y - 1970) else -daysDown (1970 - y)

/-- Number of days between 1970-01-01 and the date `y`-`m`-`d`. -/
def daysSinceUnixEpoch (y m d : Nat) : Int :=
  daysToYearStart y + daysBeforeMonth y m + ((d : Int) - 1)

/-- A calendar date that `YYYY-MM-DD` can write: a four-digit year, a month from 1 to 12
and a day that exists in that month of that year. -/
def validDate (y m d : Nat) : Prop :=
  y ≤ 9999 ∧ 1 ≤ m ∧ m ≤ 12 ∧ 1 ≤ d ∧ d ≤ monthLength y m

instance (y m d : Nat) : Decidable (validDate y m d) := by
  unfold validDate
  infer_instance

/-- The ASCII digit of `n` (below ten). -/
def digitChar (n : Nat) : Char := Char.ofNat (48 + n)

/-- The date written as `YYYY-MM-DD`, zero-padded. -/
def formatDate (y m d : Nat) : String :=
  String.mk [digitChar (y / 1000 % 10), digitChar (y / 100 % 10), digitChar (y / 10 % 10),
    digitChar (y % 10), '-', digitChar (m / 10 % 10), digitChar (m % 10), '-',
    digitChar (d / 10 % 10), digitChar (d % 10)]

/-- A string that is a valid calendar date in the form `YYYY-MM-DD`. -/
def isDateString (s : String) : Prop :=
  ∃ y m d : Nat, validDate y m d ∧ s = formatDate y m d

/-- The nine gauges of the specification for a license record: metric name and value. -/
def gaugeSet (g : gitlabLicenseMetrics) : List (String × Float64) :=
  [("gitlab_license_id", g.ID),
   ("gitlab_license_starts_at", parseStringDateTofloat g.StartsAt),
   ("gitlab_license_expires_at", parseStringDateTofloat g.ExpiresAt),
   ("gitlab_license_historical_max", g.HistoricalMax),
   ("gitlab_license_maximum_user_count", g.MaximumUserCount),
   ("gitlab_license_expired", isExpired g.Expired),
   ("gitlab_license_overage", g.Overage),
   ("gitlab_license_user_limit", g.UserLimit),
   ("gitlab_license_active_users", g.ActiveUsers)]

/-- The field holds the zero value of its type (`0`, the empty string, `false`). -/
def Field.isZeroIn (f : Field) (g : gitlabLicenseMetrics) : Prop :=
  match f with
  | Field.ID => g.ID = 0
  | Field.StartsAt => g.StartsAt = ""
  | Field.ExpiresAt => g.ExpiresAt = ""
  | Field.HistoricalMax => g.HistoricalMax = 0
  | Field.MaximumUserCount => g.MaximumUserCount = 0
  | Field.Expired => g.Expired = false
  | Field.Overage => g.Overage = 0
  | Field.UserLimit => g.UserLimit = 0
  | Field.ActiveUsers => g.ActiveUsers = 0

/-- A platform for evaluating concrete scrapes: the remaining URL checks pass and
non-ASCII runes fold to themselves (the inputs evaluated with it are ASCII). -/
def samplePlatform : Platform := ⟨fun c => c, fun _ => true⟩

/-- A scrape with both variables set to sample values, whatever the request the remote
end answers with `r`. -/
def sampleScrape (r : DoResult) : Scrape :=
  ⟨some "https://gitlab.example.com", some "glpat-example", fun _ => r⟩

/-- The JSON value is one the field can store: `null`, or a value of the field's kind (for
a number, one in the range of `float64`). -/
def Field.fits (f : Field) (v : JSON) : Bool :=
  match f, v with
  | _, JSON.null => true
  | Field.StartsAt, JSON.string _ => true
  | Field.ExpiresAt, JSON.string _ => true
  | Field.Expired, JSON.bool _ => true
  | Field.ID, JSON.number (some _) => true
  | Field.HistoricalMax, JSON.number (some _) => true
  | Field.MaximumUserCount, JSON.number (some _) => true
  | Field.Overage, JSON.number (some _) => true
  | Field.UserLimit, JSON.number (some _) => true
  | Field.ActiveUsers, JSON.number (some _) => true
  | _, _ => false

/-- A license document as GitLab returns it: the nine fields and one the exporter does
not read. -/
def sampleBody : JSON :=
  JSON.object
    [("id", JSON.number (some 42)), ("starts_at", JSON.string "2024-01-15"),
     ("expires_at", JSON.string "2025-01-15"), ("historical_max", JSON.number (some 120)),
     ("maximum_user_count", JSON.number (some 125)), ("expired", JSON.bool false),
     ("overage", JSON.number (some 5)), ("user_limit", JSON.number (some 120)),
     ("active_users", JSON.number (some 118)),
     ("licensee", JSON.object [("Name", JSON.string "Example")])]

/-- The record `sampleBody` decodes to. -/
def sampleRecord : gitlabLicenseMetrics :=
  ⟨42, "2024-01-15", "2025-01-15", 120, 125, false, 5, 120, 118⟩

/-- Closed form of the day count: days from 1 January of year 0 to 1 January of year `y`. -/
def leapDaysBefore (y : Nat) : Int :=
  365 * (y : Int) + ((y : Int) + 3) / 4 - ((y : Int) + 99) / 100 + ((y : Int) + 399) / 400

/-! ## Lemmas on the `time` package -/

theorem digitChar_toNat (k : Nat) (h : k < 10) : (digitChar k).toNat = 48 + k := by
  interval_cases k <;> rfl

theorem digitChar_ne_dash (k : Nat) (h : k < 10) : digitChar k ≠ '-' := by
  intro hc
  have := digitChar_toNat k h
  rw [hc] at this
  have h45 : ('-' : Char).toNat = 45 := rfl
  omega

theorem digitChar_ne_plus (k : Nat) (h : k < 10) : digitChar k ≠ '+' := by
  intro hc
  have := digitChar_toNat k h
  rw [hc] at this
  have h43 : ('+' : Char).toNat = 43 := rfl
  omega

theorem leadingIntLoop_digit (k : Nat) (hk : k < 10) (rest : List Char) (x : Int)
    (hx0 : 0 ≤ x) (hx : x ≤ 1000000) :
    leadingIntLoop (digitChar k :: rest) x = leadingIntLoop rest (x * 10 + k) := by
  have tk := digitChar_toNat k hk
  rw [leadingIntLoop]
  rw [if_neg (by omega), if_neg (by omega)]
  simp only [tk]
  rw [if_neg (by push_cast; omega)]
  congr 1
  push_cast
  omega

theorem atoi_digits (a b c d : Nat) (ha : a < 10) (hb : b < 10) (hc : c < 10) (hd : d < 10) :
    atoi [digitChar a, digitChar b, digitChar c, digitChar d] =
      some ((a * 1000 + b * 100 + c * 10 + d : Nat) : Int) := by
  have na := digitChar_ne_dash a ha
  have pa := digitChar_ne_plus a ha
  simp only [atoi, List.head?, Option.some.injEq, na, pa, or_self, if_false, leadingInt,
    decide_False]
  rw [leadingIntLoop_digit a ha _ _ (by omega) (by omega),
    leadingIntLoop_digit b hb _ _ (by omega) (by omega),
    leadingIntLoop_digit c hc _ _ (by omega) (by omega),
    leadingIntLoop_digit d hd _ _ (by omega) (by omega)]
  simp [leadingIntLoop]
  ring

theorem getnum_digits (e f : Nat) (he : e < 10) (hf : f < 10) (rest : List Char) :
    getnum (digitChar e :: digitChar f :: rest) true = some (((e * 10 + f : Nat) : Int), rest) := by
  have te := digitChar_toNat e he
  have tf := digitChar_toNat f hf
  simp [getnum, isDigit, digitAt, te, tf]
  omega

theorem timeParse_digits (a b c d e f g h : Nat)
    (ha : a < 10) (hb : b < 10) (hc : c < 10) (hd : d < 10)
    (he : e < 10) (hf : f < 10) (hg : g < 10) (hh : h < 10)
    (hm1 : 1 ≤ e * 10 + f) (hm2 : e * 10 + f ≤ 12)
    (hd1 : 1 ≤ g * 10 + h)
    (hd2 : ((g * 10 + h : Nat) : Int) ≤
      daysIn ((e * 10 + f : Nat) : Int) ((a * 1000 + b * 100 + c * 10 + d : Nat) : Int)) :
    timeParse [digitChar a, digitChar b, digitChar c, digitChar d, '-',
               digitChar e, digitChar f, '-', digitChar g, digitChar h] =
      (Date ((a * 1000 + b * 100 + c * 10 + d : Nat) : Int) ((e * 10 + f : Nat) : Int)
        ((g * 10 + h : Nat) : Int), false) := by
  have ta := digitChar_toNat a ha
  have h0 : isDigit [digitChar a, digitChar b, digitChar c, digitChar d, '-',
               digitChar e, digitChar f, '-', digitChar g, digitChar h] 0 = true := by
    simp [isDigit, ta]
    omega
  rw [timeParse]
  rw [if_neg (by simp [h0])]
  simp only [List.take, List.drop, atoi_digits a b c d ha hb hc hd, skipDash, ne_eq,
    not_true_eq_false, if_false, getnum_digits e f he hf, getnum_digits g h hg hh]
  rw [if_neg (by omega), if_neg (by push_cast at hd2 ⊢; omega)]

theorem leapDaysBefore_succ (y : Nat) : leapDaysBefore (y + 1) = leapDaysBefore y + yearLength y := by
  unfold leapDaysBefore yearLength isLeapYear
  by_cases h4 : y % 4 = 0 <;> by_cases h100 : y % 100 = 0 <;> by_cases h400 : y % 400 = 0 <;>
    simp [h4, h100, h400] <;> omega

theorem daysUp_eq (n : Nat) : daysUp n = leapDaysBefore (1970 + n) - leapDaysBefore 1970 := by
  induction n with
  | zero => simp [daysUp]
  | succ n ih =>
    have h := leapDaysBefore_succ (1970 + n)
    have e : 1970 + (n + 1) = 1970 + n + 1 := rfl
    rw [daysUp, ih, e, h]
    ring

theorem daysDown_eq (n : Nat) (hn : n ≤ 1970) :
    daysDown n = leapDaysBefore 1970 - leapDaysBefore (1970 - n) := by
  induction n with
  | zero => simp [daysDown]
  | succ n ih =>
    have e : 1970 - (n + 1) + 1 = 1970 - n := by omega
    have h := leapDaysBefore_succ (1970 - (n + 1))
    rw [e] at h
    rw [daysDown, ih (by omega)]
    linarith

theorem daysToYearStart_eq (y : Nat) : daysToYearStart y = leapDaysBefore y - leapDaysBefore 1970 := by
  unfold daysToYearStart
  split
  · rename_i h
    rw [daysUp_eq]
    have : 1970 + (y - 1970) = y := by omega
    rw [this]
  · rename_i h
    rw [daysDown_eq _ (by omega)]
    have : 1970 - (1970 - y) = y := by omega
    rw [this]
    ring

theorem daysSinceEpoch_eq (y : Int) (h0 : 0 ≤ y) (h1 : y ≤ 9999) :
    daysSinceEpoch y = 365 * (y + 292277022399) + (y + 292277022399) / 4
      - (y + 292277022399) / 100 + (y + 292277022399) / 400 := by
  simp only [daysSinceEpoch, wrapUint64, wrapInt64, absoluteZeroYear]
  omega

theorem norm_id (hi lo base : Int) (h0 : 0 ≤ lo) (h1 : lo < base) : norm hi lo base = (hi, lo) := by
  simp [norm, not_lt.mpr h0, not_le.mpr h1]

theorem daysBefore_bounds (m : Int) (h0 : 1 ≤ m) (h1 : m ≤ 12) :
    0 ≤ daysBefore (m - 1) ∧ daysBefore (m - 1) ≤ 365 := by
  interval_cases m <;> decide

theorem Date_Unix (y m d : Int) (hy0 : 0 ≤ y) (hy1 : y ≤ 9999) (hm0 : 1 ≤ m) (hm1 : m ≤ 12)
    (hd0 : 1 ≤ d) (hd1 : d ≤ 31) :
    (Date y m d).Unix =
      86400 * (daysSinceEpoch y + daysBefore (m - 1) +
        (if isLeap y = true ∧ m ≥ 3 then 1 else 0) + (d - 1)) - 9223372028715321600 := by
  have hdb := daysBefore_bounds m hm0 hm1
  have hE := daysSinceEpoch_eq y hy0 hy1
  have n1 := norm_id y (m - 1) 12 (by omega) (by omega)
  have n2 := norm_id 0 0 1000000000 (by omega) (by omega)
  have n3 := norm_id 0 0 60 (by omega) (by omega)
  have n4 := norm_id d 0 24 (by omega) (by omega)
  simp only [Date, n1, n2, n3, n4, Time.Unix, unixTime, internalToUnix, unixToInternal,
    absoluteToInternal, sub_add_cancel]
  generalize daysBefore (m - 1) = db at *
  generalize daysSinceEpoch y = E at *
  split_ifs <;> simp only [wrapUint64, wrapInt64] <;> omega

theorem isLeap_cast (y : Nat) : isLeap (y : Int) = isLeapYear y := by
  unfold isLeap isLeapYear
  have h4 : ((y : Int) % 4 = 0) ↔ (y % 4 = 0) := by omega
  have h100 : ((y : Int) % 100 = 0) ↔ (y % 100 = 0) := by omega
  have h400 : ((y : Int) % 400 = 0) ↔ (y % 400 = 0) := by omega
  simp only [ne_eq, h4, h100, h400]

theorem daysIn_cast (y m : Nat) (h0 : 1 ≤ m) (h1 : m ≤ 12) :
    daysIn (m : Int) (y : Int) = (monthLength y m : Int) := by
  unfold daysIn monthLength
  rw [isLeap_cast]
  interval_cases m <;> cases isLeapYear y <;> simp <;> decide

theorem daysBeforeMonth_eq (y m : Nat) (h0 : 1 ≤ m) (h1 : m ≤ 12) :
    daysBeforeMonth y m =
      daysBefore ((m : Int) - 1) + (if isLeap (y : Int) = true ∧ (m : Int) ≥ 3 then 1 else 0) := by
  rw [isLeap_cast]
  interval_cases m <;> simp only [daysBeforeMonth, monthLength] <;> cases isLeapYear y <;>
    simp <;> decide

/-- On a valid date written as `YYYY-MM-DD`, `time.Parse` succeeds and the Unix time of
its result is `86400` times the day count. -/
theorem timeParse_formatDate (y m d : Nat) (hv : validDate y m d) :
    (timeParse (formatDate y m d).toList).2 = false ∧
    (timeParse (formatDate y m d).toList).1.Unix = 86400 * daysSinceUnixEpoch y m d := by
  obtain ⟨hy, hm0, hm1, hd0, hd1⟩ := hv
  have hml : monthLength y m ≤ 31 := by
    unfold monthLength
    split_ifs <;> omega
  have ey : y / 1000 % 10 * 1000 + y / 100 % 10 * 100 + y / 10 % 10 * 10 + y % 10 = y := by omega
  have em : m / 10 % 10 * 10 + m % 10 = m := by omega
  have ed : d / 10 % 10 * 10 + d % 10 = d := by omega
  have hp := timeParse_digits (y / 1000 % 10) (y / 100 % 10) (y / 10 % 10) (y % 10)
    (m / 10 % 10) (m % 10) (d / 10 % 10) (d % 10)
    (Nat.mod_lt _ (by norm_num)) (Nat.mod_lt _ (by norm_num)) (Nat.mod_lt _ (by norm_num))
    (Nat.mod_lt _ (by norm_num)) (Nat.mod_lt _ (by norm_num)) (Nat.mod_lt _ (by norm_num))
    (Nat.mod_lt _ (by norm_num)) (Nat.mod_lt _ (by norm_num))
    (by omega) (by omega) (by omega)
    (by rw [ey, em, ed, daysIn_cast y m hm0 hm1]; exact_mod_cast hd1)
  rw [ey, em, ed] at hp
  have hl : (formatDate y m d).toList =
      [digitChar (y / 1000 % 10), digitChar (y / 100 % 10), digitChar (y / 10 % 10),
       digitChar (y % 10), '-', digitChar (m / 10 % 10), digitChar (m % 10), '-',
       digitChar (d / 10 % 10), digitChar (d % 10)] := rfl
  rw [hl, hp]
  refine ⟨rfl, ?_⟩
  have hU := Date_Unix (y : Int) (m : Int) (d : Int) (by omega) (by omega) (by omega) (by omega)
    (by omega) (by omega)
  simp only [hU]
  rw [daysSinceEpoch_eq (y : Int) (by omega) (by omega)]
  unfold daysSinceUnixEpoch
  rw [daysToYearStart_eq, daysBeforeMonth_eq y m hm0 hm1]
  unfold leapDaysBefore
  generalize daysBefore ((m : Int) - 1) = db
  generalize (if isLeap (y : Int) = true ∧ (m : Int) ≥ 3 then (1 : Int) else 0) = adj
  push_cast
  omega

theorem digitChar_of_digit (c : Char) (h0 : 48 ≤ c.toNat) (h1 : c.toNat ≤ 57) :
    ∃ k, k < 10 ∧ c = digitChar k := by
  refine ⟨c.toNat - 48, by omega, ?_⟩
  unfold digitChar
  have : 48 + (c.toNat - 48) = c.toNat := by omega
  rw [this, Char.ofNat_toNat]

theorem skipDash_some (v r : List Char) (h : skipDash v = some r) : v = '-' :: r := by
  cases v with
  | nil => simp [skipDash] at h
  | cons c rest =>
    simp only [skipDash] at h
    split_ifs at h with hc
    simp only [ne_eq, not_not] at hc
    simp only [Option.some.injEq] at h
    rw [hc, h]

theorem getnum_some (v r : List Char) (n : Int) (h : getnum v true = some (n, r)) :
    ∃ e f, e < 10 ∧ f < 10 ∧ v = digitChar e :: digitChar f :: r := by
  unfold getnum at h
  by_cases h0 : isDigit v 0 = true
  · by_cases h1 : isDigit v 1 = true
    · simp only [h0, h1, Bool.not_true, Bool.false_eq_true, if_false, Option.some.injEq,
        Prod.mk.injEq] at h
      match v, h0, h1, h with
      | [], h0, _, _ => simp [isDigit] at h0
      | [_], _, h1, _ => simp [isDigit] at h1
      | e :: f :: rest, h0, h1, h =>
        simp [isDigit] at h0 h1
        obtain ⟨ke, hke, rfl⟩ := digitChar_of_digit e h0.1 h0.2
        obtain ⟨kf, hkf, rfl⟩ := digitChar_of_digit f h1.1 h1.2
        simp only [List.drop] at h
        exact ⟨ke, kf, hke, hkf, by rw [h.2]⟩
    · simp [h0, h1] at h
  · simp [h0] at h

theorem leadingIntLoop_nondigit (c : Char) (rest : List Char) (x : Int)
    (hc : c.toNat < 48 ∨ 57 < c.toNat) :
    leadingIntLoop (c :: rest) x = some (x, c :: rest) := by
  rw [leadingIntLoop, if_pos hc]

theorem atoi_some4 (a b c d : Char) (ha0 : 48 ≤ a.toNat) (ha1 : a.toNat ≤ 57) (yr : Int)
    (h : atoi [a, b, c, d] = some yr) :
    ∃ ka kb kc kd, ka < 10 ∧ kb < 10 ∧ kc < 10 ∧ kd < 10 ∧
      [a, b, c, d] = [digitChar ka, digitChar kb, digitChar kc, digitChar kd] := by
  obtain ⟨ka, hka, rfl⟩ := digitChar_of_digit a ha0 ha1
  have na := digitChar_ne_dash ka hka
  have pa := digitChar_ne_plus ka hka
  simp only [atoi, List.head?, Option.some.injEq, na, pa, or_self, if_false, leadingInt,
    decide_False] at h
  rw [leadingIntLoop_digit ka hka _ _ (by omega) (by omega)] at h
  by_cases hb : b.toNat < 48 ∨ 57 < b.toNat
  · rw [leadingIntLoop_nondigit b _ _ hb] at h
    simp at h
  obtain ⟨kb, hkb, rfl⟩ := digitChar_of_digit b (by omega) (by omega)
  rw [leadingIntLoop_digit kb hkb _ _ (by omega) (by omega)] at h
  by_cases hc : c.toNat < 48 ∨ 57 < c.toNat
  · rw [leadingIntLoop_nondigit c _ _ hc] at h
    simp at h
  obtain ⟨kc, hkc, rfl⟩ := digitChar_of_digit c (by omega) (by omega)
  rw [leadingIntLoop_digit kc hkc _ _ (by omega) (by omega)] at h
  by_cases hd : d.toNat < 48 ∨ 57 < d.toNat
  · rw [leadingIntLoop_nondigit d _ _ hd] at h
    simp at h
  obtain ⟨kd, hkd, rfl⟩ := digitChar_of_digit d (by omega) (by omega)
  exact ⟨ka, kb, kc, kd, hka, hkb, hkc, hkd, rfl⟩

theorem list_four (cs : List Char) (h : 4 ≤ cs.length) :
    ∃ a b c d rest, cs = a :: b :: c :: d :: rest := by
  match cs, h with
  | a :: b :: c :: d :: rest, _ => exact ⟨a, b, c, d, rest, rfl⟩
  | [], h => simp at h
  | [_], h => simp at h
  | [_, _], h => simp at h
  | [_, _, _], h => simp at h

/-- Whenever `time.Parse` returns no error, its input is a valid date written as
`YYYY-MM-DD`. -/
theorem timeParse_ok (cs : List Char) (h : (timeParse cs).2 = false) :
    ∃ y m d, validDate y m d ∧ cs = (formatDate y m d).toList := by
  unfold timeParse at h
  by_cases h1 : cs.length < 4 ∨ isDigit cs 0 = false
  · rw [if_pos h1] at h
    simp at h
  rw [if_neg h1] at h
  push_neg at h1
  obtain ⟨hlen, hdig⟩ := h1
  obtain ⟨a, b, c, d, rest, rfl⟩ := list_four cs hlen
  simp [isDigit] at hdig
  simp only [List.take, List.drop] at h
  cases hA : atoi [a, b, c, d] with
  | none => rw [hA] at h; simp at h
  | some year =>
  obtain ⟨ka, kb, kc, kd, hka, hkb, hkc, hkd, hl⟩ := atoi_some4 a b c d hdig.1 hdig.2 year hA
  simp only [List.cons.injEq, and_true] at hl
  obtain ⟨rfl, rfl, rfl, rfl⟩ := hl
  rw [atoi_digits ka kb kc kd hka hkb hkc hkd] at h
  simp only [] at h
  cases hS1 : skipDash rest with
  | none => rw [hS1] at h; simp at h
  | some v1 =>
  rw [hS1] at h
  simp only [] at h
  have e1 := skipDash_some rest v1 hS1
  subst e1
  cases hG1 : getnum v1 true with
  | none => rw [hG1] at h; simp at h
  | some p1 =>
  obtain ⟨month, v2⟩ := p1
  obtain ⟨e, f, he, hf, rfl⟩ := getnum_some v1 v2 month hG1
  rw [getnum_digits e f he hf] at h
  simp only [] at h
  by_cases hm : ((e * 10 + f : Nat) : Int) ≤ 0 ∨ 12 < ((e * 10 + f : Nat) : Int)
  · rw [if_pos hm] at h
    simp at h
  rw [if_neg hm] at h
  cases hS2 : skipDash v2 with
  | none => rw [hS2] at h; simp at h
  | some v3 =>
  rw [hS2] at h
  simp only [] at h
  have e2 := skipDash_some v2 v3 hS2
  subst e2
  cases hG2 : getnum v3 true with
  | none => rw [hG2] at h; simp at h
  | some p2 =>
  obtain ⟨day, v4⟩ := p2
  obtain ⟨g, k, hg, hk, rfl⟩ := getnum_some v3 v4 day hG2
  rw [getnum_digits g k hg hk] at h
  simp only [] at h
  by_cases hv4 : v4 ≠ []
  · rw [if_pos hv4] at h
    simp at h
  rw [if_neg hv4] at h
  simp only [ne_eq, not_not] at hv4
  subst hv4
  by_cases hday : ((g * 10 + k : Nat) : Int) < 1 ∨ ((g * 10 + k : Nat) : Int) >
      daysIn ((e * 10 + f : Nat) : Int) ((ka * 1000 + kb * 100 + kc * 10 + kd : Nat) : Int)
  · rw [if_pos hday] at h
    simp at h
  push_neg at hm hday
  have hm0 : 1 ≤ e * 10 + f := by omega
  have hm1 : e * 10 + f ≤ 12 := by omega
  rw [daysIn_cast _ _ hm0 hm1] at hday
  refine ⟨ka * 1000 + kb * 100 + kc * 10 + kd, e * 10 + f, g * 10 + k,
    ⟨by omega, hm0, hm1, by omega, by exact_mod_cast hday.2⟩, ?_⟩
  have ey1 : (ka * 1000 + kb * 100 + kc * 10 + kd) / 1000 % 10 = ka := by omega
  have ey2 : (ka * 1000 + kb * 100 + kc * 10 + kd) / 100 % 10 = kb := by omega
  have ey3 : (ka * 1000 + kb * 100 + kc * 10 + kd) / 10 % 10 = kc := by omega
  have ey4 : (ka * 1000 + kb * 100 + kc * 10 + kd) % 10 = kd := by omega
  have em1 : (e * 10 + f) / 10 % 10 = e := by omega
  have em2 : (e * 10 + f) % 10 = f := by omega
  have ed1 : (g * 10 + k) / 10 % 10 = g := by omega
  have ed2 : (g * 10 + k) % 10 = k := by omega
  simp only [formatDate, ey1, ey2, ey3, ey4, em1, em2, ed1, ed2]
  rfl

theorem timeParse_zero_or_ok (cs : List Char) :
    timeParse cs = (Time.zero, true) ∨ (timeParse cs).2 = false := by
  unfold timeParse
  repeat' split
  all_goals first | (left; rfl) | (right; rfl)

theorem String_eq_of_toList (s t : String) (h : s.toList = t.toList) : s = t := by
  cases s
  cases t
  simp only [String.toList] at h
  rw [h]

theorem not_isDateString_of_error (s : String) (h : (timeParse s.toList).2 = true) :
    ¬ isDateString s := by
  rintro ⟨y, m, d, hv, rfl⟩
  rw [(timeParse_formatDate y m d hv).1] at h
  exact Bool.false_ne_true h

theorem error_of_not_isDateString (s : String) (h : ¬ isDateString s) :
    timeParse s.toList = (Time.zero, true) := by
  rcases timeParse_zero_or_ok s.toList with hz | hok
  · exact hz
  · obtain ⟨y, m, d, hv, hs⟩ := timeParse_ok s.toList hok
    exact absurd ⟨y, m, d, hv, String_eq_of_toList _ _ hs⟩ h

/-! ## Lemmas on `json.Unmarshal` -/

theorem decodeMembers_append (P : Platform) (pre post : List (String × JSON))
    (st : gitlabLicenseMetrics × Option JsonError) :
    decodeMembers P (pre ++ post) st = decodeMembers P post (decodeMembers P pre st) := by
  induction pre generalizing st with
  | nil => rfl
  | cons kv rest ih =>
    obtain ⟨key, v⟩ := kv
    obtain ⟨g, saved⟩ := st
    simp only [List.cons_append, decodeMembers]
    split <;> exact ih _

theorem storeField_keeps_zero (g : gitlabLicenseMetrics) (f f1 : Field) (v : JSON)
    (hne : f1 ≠ f) (hz : f.isZeroIn g) : f.isZeroIn (storeField g f1 v).1 := by
  cases f <;> cases f1 <;> first | exact absurd rfl hne | exact hz

theorem decodeMembers_keeps_zero (P : Platform) (f : Field) (members : List (String × JSON))
    (st : gitlabLicenseMetrics × Option JsonError)
    (habs : ∀ kv ∈ members, lookupField P kv.1 ≠ some f) (hz : f.isZeroIn st.1) :
    f.isZeroIn (decodeMembers P members st).1 := by
  induction members generalizing st with
  | nil => exact hz
  | cons kv rest ih =>
    obtain ⟨key, v⟩ := kv
    obtain ⟨g, saved⟩ := st
    have hrest : ∀ kv ∈ rest, lookupField P kv.1 ≠ some f :=
      fun kv hkv => habs kv (List.mem_cons_of_mem _ hkv)
    have hkey : lookupField P key ≠ some f := habs (key, v) (List.mem_cons_self _ _)
    simp only [decodeMembers]
    split
    · exact ih _ hrest hz
    · rename_i f1 hf1
      apply ih _ hrest
      apply storeField_keeps_zero g f f1 v _ hz
      intro e
      rw [e] at hf1
      exact hkey hf1

/-! ## Lemmas on `Collect` -/

theorem sendGauges_of_valid (l : List (Desc × Float64)) (sent : List Metric)
    (h : ∀ p ∈ l, p.1.err = false) :
    sendGauges l sent = (sent ++ l.map (fun p => ⟨p.1, ValueType.GaugeValue, p.2⟩), false) := by
  induction l generalizing sent with
  | nil => simp [sendGauges]
  | cons p rest ih =>
    obtain ⟨desc, v⟩ := p
    have hd : desc.err = false := h (desc, v) (List.mem_cons_self _ _)
    have hrest : ∀ q ∈ rest, q.1.err = false := fun q hq => h q (List.mem_cons_of_mem _ hq)
    simp [sendGauges, MustNewConstMetric, hd, ih _ hrest]

theorem describe_err_free : ∀ d ∈ Describe newGitlabLicenseCollector, d.err = false := by
  decide

/-- Once `client.Do` has returned a response whose status is not 401, `Collect` sends the
nine gauges computed from whatever `json.Unmarshal` left in `g`, and returns. -/
theorem Collect_of_response (P : Platform) (w : Scrape) (url token : String) (req0 : Request)
    (resp : Response)
    (hurl : w.GITLAB_URL = some url) (htok : w.GITLAB_TOKEN = some token)
    (hreq : NewRequest P (url ++ "/api/v4/license") = Except.ok req0)
    (hdo : w.remote (req0.addHeader "Authorization" ("Bearer " ++ token)) = DoResult.response resp)
    (hstatus : resp.StatusCode ≠ 401) :
    (Collect P newGitlabLicenseCollector w).sent =
      (List.zip (Describe newGitlabLicenseCollector)
        ((gaugeSet (Unmarshal P resp.body).1).map Prod.snd)).map
        (fun p => ⟨p.1, ValueType.GaugeValue, p.2⟩) ∧
    (Collect P newGitlabLicenseCollector w).ending = Ending.returned := by
  have hall : ∀ (vs : List Float64),
      ∀ p ∈ List.zip (Describe newGitlabLicenseCollector) vs, p.1.err = false := by
    intro vs p hp
    exact describe_err_free p.1 (List.of_mem_zip hp).1
  simp only [Collect, validateEnvVars, hurl, htok, hreq, hdo, hstatus, if_false]
  have := sendGauges_of_valid (List.zip (Describe newGitlabLicenseCollector)
        ((gaugeSet (Unmarshal P resp.body).1).map Prod.snd)) [] (hall _)
  simp only [Describe, gaugeSet, List.map, List.zip, List.zipWith, List.nil_append] at this ⊢
  rw [this]
  simp

theorem sampleRequest_ok :
    NewRequest samplePlatform ("https://gitlab.example.com" ++ "/api/v4/license") =
      Except.ok ⟨"GET", "https://gitlab.example.com/api/v4/license", []⟩ := by
  rfl

/-- When `client.Do` returns an error or a response with status 401, `Collect` returns
without sending. -/
theorem Collect_of_no_response (P : Platform) (w : Scrape) (url token : String)
    (req0 : Request)
    (hurl : w.GITLAB_URL = some url) (htok : w.GITLAB_TOKEN = some token)
    (hreq : NewRequest P (url ++ "/api/v4/license") = Except.ok req0)
    (hdo : (∃ err, w.remote (req0.addHeader "Authorization" ("Bearer " ++ token)) =
              DoResult.error err) ∨
           (∃ resp, w.remote (req0.addHeader "Authorization" ("Bearer " ++ token)) =
              DoResult.response resp ∧ resp.StatusCode = 401)) :
    (Collect P newGitlabLicenseCollector w).sent = [] ∧
    (Collect P newGitlabLicenseCollector w).ending = Ending.returned := by
  rcases hdo with ⟨err, hdo⟩ | ⟨resp, hdo, h401⟩
  · simp only [Collect, validateEnvVars, hurl, htok, hreq, hdo, and_self]
  · simp only [Collect, validateEnvVars, hurl, htok, hreq, hdo, h401, if_true, and_self]

theorem decodeMembers_skip (P : Platform) (pre post : List (String × JSON)) (key : String)
    (v : JSON) (st : gitlabLicenseMetrics × Option JsonError) (hkey : lookupField P key = none) :
    decodeMembers P (pre ++ (key, v) :: post) st = decodeMembers P (pre ++ post) st := by
  rw [decodeMembers_append, decodeMembers_append]
  generalize decodeMembers P pre st = st1
  obtain ⟨g, saved⟩ := st1
  simp only [decodeMembers, hkey]

theorem storeField_fits (g : gitlabLicenseMetrics) (f : Field) (v : JSON)
    (h : f.fits v = true) : (storeField g f v).2 = none := by
  cases f <;> cases v <;>
    first
    | rfl
    | (exfalso; exact Bool.false_ne_true h)
    | (rename_i x; cases x <;> first | rfl | (exfalso; exact Bool.false_ne_true h))

theorem decodeMembers_no_error (P : Platform) (members : List (String × JSON))
    (g : gitlabLicenseMetrics)
    (hfit : ∀ kv ∈ members, ∀ f, lookupField P kv.1 = some f → f.fits kv.2 = true) :
    (decodeMembers P members (g, none)).2 = none := by
  induction members generalizing g with
  | nil => rfl
  | cons kv rest ih =>
    obtain ⟨key, v⟩ := kv
    have hrest : ∀ kv ∈ rest, ∀ f, lookupField P kv.1 = some f → f.fits kv.2 = true :=
      fun kv hkv => hfit kv (List.mem_cons_of_mem _ hkv)
    simp only [decodeMembers]
    split
    · exact ih g hrest
    · rename_i f hf
      have h0 := storeField_fits g f v (hfit (key, v) (List.mem_cons_self _ _) f hf)
      simp only [Option.isSome_none, Bool.false_eq_true, if_false, h0]
      exact ih _ hrest

/-! ## The claims -/

/-- C1: for a response whose status is not 401 and whose body decodes without error to
the record `g`, `Collect` sends exactly nine metrics, all gauges, one for each of the nine
descriptors in the order of `Describe`, no descriptor twice, named and valued as the
specification's gauge set of `g` (six fields unchanged, the two dates through
`parseStringDateTofloat`, `expired` through `isExpired`), and returns. -/
theorem collect_emits_nine_gauges (P : Platform) (w : Scrape) (url token : String)
    (req0 : Request) (resp : Response) (g : gitlabLicenseMetrics)
    (hurl : w.GITLAB_URL = some url) (htok : w.GITLAB_TOKEN = some token)
    (hreq : NewRequest P (url ++ "/api/v4/license") = Except.ok req0)
    (hdo : w.remote (req0.addHeader "Authorization" ("Bearer " ++ token)) = DoResult.response resp)
    (hstatus : resp.StatusCode ≠ 401)
    (hdec : Unmarshal P resp.body = (g, none)) :
    (Collect P newGitlabLicenseCollector w).sent.length = 9 ∧
    (Collect P newGitlabLicenseCollector w).sent.map (fun m => (m.desc.fqName, m.value)) =
      [("gitlab_license_id", g.ID),
       ("gitlab_license_starts_at", parseStringDateTofloat g.StartsAt),
       ("gitlab_license_expires_at", parseStringDateTofloat g.ExpiresAt),
       ("gitlab_license_historical_max", g.HistoricalMax),
       ("gitlab_license_maximum_user_count", g.MaximumUserCount),
       ("gitlab_license_expired", isExpired g.Expired),
       ("gitlab_license_overage", g.Overage),
       ("gitlab_license_user_limit", g.UserLimit),
       ("gitlab_license_active_users", g.ActiveUsers)] ∧
    (Collect P newGitlabLicenseCollector w).sent.map (fun m => m.desc) =
      Describe newGitlabLicenseCollector ∧
    ((Collect P newGitlabLicenseCollector w).sent.map (fun m => m.desc.fqName)).Nodup ∧
    (∀ m ∈ (Collect P newGitlabLicenseCollector w).sent, m.valType = ValueType.GaugeValue) ∧
    (Collect P newGitlabLicenseCollector w).ending = Ending.returned := by
  obtain ⟨hs, he⟩ := Collect_of_response P w url token req0 resp hurl htok hreq hdo hstatus
  rw [hdec] at hs
  rw [hs, he]
  refine ⟨rfl, ?_, rfl, ?_, ?_, rfl⟩
  · simp [Describe, gaugeSet, newGitlabLicenseCollector, NewDesc, BuildFQName, metricNamespace]
  · simp only [Describe, gaugeSet, List.map, List.zip, List.zipWith]
    decide
  · intro m hm
    simp only [List.mem_map] at hm
    obtain ⟨p, _, rfl⟩ := hm
    rfl

/-- Witness of C1: the sample license document, answered with status 200, yields the nine
named gauges with the values of its fields. -/
theorem collect_emits_nine_gauges_witness :
    (Collect samplePlatform newGitlabLicenseCollector
        (sampleScrape (DoResult.response ⟨200, none, some sampleBody⟩))).sent.map
        (fun m => (m.desc.fqName, m.value)) =
      [("gitlab_license_id", 42),
       ("gitlab_license_starts_at", parseStringDateTofloat "2024-01-15"),
       ("gitlab_license_expires_at", parseStringDateTofloat "2025-01-15"),
       ("gitlab_license_historical_max", 120),
       ("gitlab_license_maximum_user_count", 125),
       ("gitlab_license_expired", isExpired false),
       ("gitlab_license_overage", 5),
       ("gitlab_license_user_limit", 120),
       ("gitlab_license_active_users", 118)] :=
  (collect_emits_nine_gauges samplePlatform
    (sampleScrape (DoResult.response ⟨200, none, some sampleBody⟩))
    "https://gitlab.example.com" "glpat-example"
    ⟨"GET", "https://gitlab.example.com/api/v4/license", []⟩
    ⟨200, none, some sampleBody⟩ sampleRecord rfl rfl sampleRequest_ok rfl (by decide) rfl).2.1

/-- C2 (the code at the failing input): a response with status 200 whose body is not JSON
makes `json.Unmarshal` return a syntax error, and `Collect` still sends nine metrics, all
computed from the zero record, and returns. -/
theorem collect_undecodable_body_sends_nine :
    (Unmarshal samplePlatform none).2 = some JsonError.syntaxError ∧
    (Collect samplePlatform newGitlabLicenseCollector
        (sampleScrape (DoResult.response ⟨200, none, none⟩))).sent.length = 9 ∧
    (Collect samplePlatform newGitlabLicenseCollector
        (sampleScrape (DoResult.response ⟨200, none, none⟩))).sent.map (fun m => m.value) =
      [0, -62135596800, -62135596800, 0, 0, 0, 0, 0, 0] ∧
    (Collect samplePlatform newGitlabLicenseCollector
        (sampleScrape (DoResult.response ⟨200, none, none⟩))).ending = Ending.returned := by
  obtain ⟨hs, he⟩ := Collect_of_response samplePlatform
    (sampleScrape (DoResult.response ⟨200, none, none⟩))
    "https://gitlab.example.com" "glpat-example"
    ⟨"GET", "https://gitlab.example.com/api/v4/license", []⟩
    ⟨200, none, none⟩ rfl rfl sampleRequest_ok rfl (by decide)
  rw [hs, he]
  refine ⟨rfl, rfl, ?_, rfl⟩
  decide

/-- C3: when `client.Do` returns a transport error, or a response with status 401
(whatever its body), `Collect` sends nothing and returns normally. -/
theorem collect_transport_error_or_401 (P : Platform) (w : Scrape) (url token : String)
    (req0 : Request)
    (hurl : w.GITLAB_URL = some url) (htok : w.GITLAB_TOKEN = some token)
    (hreq : NewRequest P (url ++ "/api/v4/license") = Except.ok req0)
    (hdo : (∃ err, w.remote (req0.addHeader "Authorization" ("Bearer " ++ token)) =
              DoResult.error err) ∨
           (∃ resp, w.remote (req0.addHeader "Authorization" ("Bearer " ++ token)) =
              DoResult.response resp ∧ resp.StatusCode = 401)) :
    (Collect P newGitlabLicenseCollector w).sent = [] ∧
    (Collect P newGitlabLicenseCollector w).ending = Ending.returned :=
  Collect_of_no_response P w url token req0 hurl htok hreq hdo

/-- Witness of C3: a 401 response that carries a complete license document. -/
theorem collect_transport_error_or_401_witness :
    (Collect samplePlatform newGitlabLicenseCollector
        (sampleScrape (DoResult.response ⟨401, none, some sampleBody⟩))).sent = [] ∧
    (Collect samplePlatform newGitlabLicenseCollector
        (sampleScrape (DoResult.response ⟨401, none, some sampleBody⟩))).ending =
      Ending.returned :=
  collect_transport_error_or_401 samplePlatform
    (sampleScrape (DoResult.response ⟨401, none, some sampleBody⟩))
    "https://gitlab.example.com" "glpat-example"
    ⟨"GET", "https://gitlab.example.com/api/v4/license", []⟩ rfl rfl sampleRequest_ok
    (Or.inr ⟨⟨401, none, some sampleBody⟩, rfl, rfl⟩)

/-- C4 as stated fails: with `GITLAB_URL` unset at scrape time `Collect` does not return;
the process exits with status 1. -/
theorem collect_unset_url_exits :
    (Collect samplePlatform newGitlabLicenseCollector
        ⟨none, some "glpat-example", fun _ => DoResult.error "unreachable"⟩).ending =
      Ending.exited 1 ∧
    (Collect samplePlatform newGitlabLicenseCollector
        ⟨none, some "glpat-example", fun _ => DoResult.error "unreachable"⟩).ending ≠
      Ending.returned := by
  decide

/-- C4 amended: if `GITLAB_URL` or `GITLAB_TOKEN` is unset at scrape time, `Collect` sends
no metric, logs one line at level fatal, and the process exits with status 1. -/
theorem collect_unset_env_exits (P : Platform) (c : gitlabLicenseCollector) (w : Scrape)
    (h : w.GITLAB_URL = none ∨ w.GITLAB_TOKEN = none) :
    (Collect P c w).sent = [] ∧
    (Collect P c w).ending = Ending.exited 1 ∧
    (∃ msg, (Collect P c w).log = [(LogLevel.Fatal, msg)]) := by
  rcases h with h | h
  · simp [Collect, validateEnvVars, h]
  · cases hu : w.GITLAB_URL <;> simp [Collect, validateEnvVars, h, hu]

/-- Witness of C4 amended: the token is unset. -/
theorem collect_unset_env_exits_witness :
    (Collect samplePlatform newGitlabLicenseCollector
        ⟨some "https://gitlab.example.com", none, fun _ => DoResult.error "unreachable"⟩).sent
      = [] ∧
    (Collect samplePlatform newGitlabLicenseCollector
        ⟨some "https://gitlab.example.com", none, fun _ => DoResult.error "unreachable"⟩).ending
      = Ending.exited 1 :=
  let r := collect_unset_env_exits samplePlatform newGitlabLicenseCollector
    ⟨some "https://gitlab.example.com", none, fun _ => DoResult.error "unreachable"⟩
    (Or.inr rfl)
  ⟨r.1, r.2.1⟩

/-- C7: `isExpired(true) = 1`, `isExpired(false) = 0`, every result is one of the two, and
the `default` arm of the switch is never taken. -/
theorem isExpired_zero_or_one :
    isExpired true = 1 ∧ isExpired false = 0 ∧
    (∀ b : Bool, isExpired b = 0 ∨ isExpired b = 1) ∧
    (∀ b : Bool, isExpiredArm b ≠ SwitchArm.default) := by
  refine ⟨rfl, rfl, ?_, ?_⟩
  · intro b
    cases b
    · exact Or.inl rfl
    · exact Or.inr rfl
  · intro b
    cases b <;> decide

/-- C9 (the code at the failing input): with `GITLAB_URL` set to `":"` the URL has no
scheme before the colon, `http.NewRequest` returns an error and a nil request, the error is
logged, and `Collect` panics on `req.Header` without sending anything. -/
theorem collect_panics_on_unparsable_url (P : Platform) (remote : Request → DoResult) :
    (∃ err, NewRequest P (":" ++ "/api/v4/license") = Except.error err) ∧
    (Collect P newGitlabLicenseCollector ⟨some ":", some "glpat-example", remote⟩).ending =
      Ending.panicked ∧
    (Collect P newGitlabLicenseCollector ⟨some ":", some "glpat-example", remote⟩).sent = [] := by
  have h : NewRequest P (":" ++ "/api/v4/license") = Except.error "missing protocol scheme" := by
    rfl
  refine ⟨⟨_, h⟩, ?_, ?_⟩ <;> simp only [Collect, validateEnvVars, h]

/-- C10: once the request is built, `Collect` sends nine metrics exactly when `client.Do`
returned a response whose status is not 401, whatever the status, the outcome of reading
the body and the outcome of decoding it; otherwise it sends none.  It returns either way. -/
theorem collect_sample_count (P : Platform) (w : Scrape) (url token : String) (req0 : Request)
    (hurl : w.GITLAB_URL = some url) (htok : w.GITLAB_TOKEN = some token)
    (hreq : NewRequest P (url ++ "/api/v4/license") = Except.ok req0) :
    ((Collect P newGitlabLicenseCollector w).sent.length = 9 ↔
      ∃ resp, w.remote (req0.addHeader "Authorization" ("Bearer " ++ token)) =
        DoResult.response resp ∧ resp.StatusCode ≠ 401) ∧
    ((¬ ∃ resp, w.remote (req0.addHeader "Authorization" ("Bearer " ++ token)) =
        DoResult.response resp ∧ resp.StatusCode ≠ 401) →
      (Collect P newGitlabLicenseCollector w).sent.length = 0) ∧
    (Collect P newGitlabLicenseCollector w).ending = Ending.returned := by
  cases hdo : w.remote (req0.addHeader "Authorization" ("Bearer " ++ token)) with
  | error err =>
    have h := Collect_of_no_response P w url token req0 hurl htok hreq
      (Or.inl ⟨err, hdo⟩)
    rw [h.1, h.2]
    simp
  | response resp =>
    by_cases h401 : resp.StatusCode = 401
    · have h := Collect_of_no_response P w url token req0 hurl htok hreq
        (Or.inr ⟨resp, hdo, h401⟩)
      rw [h.1, h.2]
      simp [h401]
    · obtain ⟨hs, he⟩ := Collect_of_response P w url token req0 resp hurl htok hreq hdo h401
      rw [hs, he]
      refine ⟨⟨fun _ => ⟨resp, rfl, h401⟩, fun _ => rfl⟩, ?_, rfl⟩
      intro hno
      exact absurd ⟨resp, rfl, h401⟩ hno

/-- Witness of C10: a 500 response whose body could not be read in full and is not JSON. -/
theorem collect_sample_count_witness :
    (Collect samplePlatform newGitlabLicenseCollector
        (sampleScrape (DoResult.response ⟨500, some "unexpected EOF", none⟩))).sent.length = 9 :=
  (collect_sample_count samplePlatform
    (sampleScrape (DoResult.response ⟨500, some "unexpected EOF", none⟩))
    "https://gitlab.example.com" "glpat-example"
    ⟨"GET", "https://gitlab.example.com/api/v4/license", []⟩ rfl rfl sampleRequest_ok).1.2
    ⟨⟨500, some "unexpected EOF", none⟩, rfl, by decide⟩

/-- C5: on every string that is a valid calendar date written `YYYY-MM-DD`,
`parseStringDateTofloat` returns `86400` times the number of days between 1970-01-01 and
that date, a value that is a function of the string alone; `time.Parse` reports no error
there; in particular `"2024-01-15"` maps to 1705276800. -/
theorem parseStringDateTofloat_valid_date (s : String) (y m d : Nat)
    (hv : validDate y m d) (hs : s = formatDate y m d) :
    parseStringDateTofloat s = 86400 * (daysSinceUnixEpoch y m d : ℚ) ∧
    (timeParse s.toList).2 = false ∧
    parseStringDateTofloat "2024-01-15" = 1705276800 := by
  obtain ⟨herr, hunix⟩ := timeParse_formatDate y m d hv
  subst hs
  refine ⟨?_, herr, by decide⟩
  simp only [parseStringDateTofloat, hunix]
  push_cast
  ring

/-- Witness of C5: `"2024-01-15"` is the date 2024-01-15, 19737 days after 1970-01-01, and
maps to 1705276800. -/
theorem parseStringDateTofloat_valid_date_witness :
    validDate 2024 1 15 ∧ "2024-01-15" = formatDate 2024 1 15 ∧
    daysSinceUnixEpoch 2024 1 15 = 19737 ∧
    parseStringDateTofloat "2024-01-15" = 1705276800 := by
  have h := (parseStringDateTofloat_valid_date "2024-01-15" 2024 1 15 (by decide) (by decide)).1
  have hd : daysSinceUnixEpoch 2024 1 15 = 19737 := by decide
  refine ⟨by decide, by decide, hd, ?_⟩
  rw [h, hd]
  norm_num

/-- C6 as stated fails: the empty string, a date with wrong separators, a date followed
by a time, and the dates 2023-02-29 and 2023-13-01 are not valid `YYYY-MM-DD` dates, and
on each of them `parseStringDateTofloat` returns -62135596800, not 0. -/
theorem parseStringDateTofloat_invalid_not_zero :
    (∀ s ∈ ["", "2023/01/15", "2023-01-15T00:00:00Z", "2023-02-29", "2023-13-01"],
      ¬ isDateString s ∧ parseStringDateTofloat s = -62135596800) ∧
    parseStringDateTofloat "" ≠ 0 := by
  refine ⟨?_, ?_⟩
  · intro s hs
    simp only [List.mem_cons, List.mem_singleton, List.not_mem_nil, or_false] at hs
    rcases hs with rfl | rfl | rfl | rfl | rfl <;>
      exact ⟨not_isDateString_of_error _ (by decide), by decide⟩
  · decide

/-- C6 amended: on every string that is not a valid calendar date written `YYYY-MM-DD`,
`time.Parse` returns an error together with the zero `Time`, and `parseStringDateTofloat`
returns the Unix time of that value, -62135596800 (midnight of 1 January of year 1). -/
theorem parseStringDateTofloat_invalid (s : String) (h : ¬ isDateString s) :
    timeParse s.toList = (Time.zero, true) ∧ parseStringDateTofloat s = -62135596800 := by
  have hz := error_of_not_isDateString s h
  refine ⟨hz, ?_⟩
  simp only [parseStringDateTofloat, hz]
  decide

/-- Witness of C6 amended: 29 February of the non-leap year 2023. -/
theorem parseStringDateTofloat_invalid_witness :
    ¬ isDateString "2023-02-29" ∧ parseStringDateTofloat "2023-02-29" = -62135596800 :=
  ⟨not_isDateString_of_error "2023-02-29" (by decide),
   (parseStringDateTofloat_invalid "2023-02-29"
     (not_isDateString_of_error "2023-02-29" (by decide))).2⟩

/-- C8 as stated fails: the key `"ID"` is not one of the nine record keys, yet an object
that holds it and has no `"id"` key decodes `ID` to its value, unlike the same object
without it. -/
theorem unmarshal_folded_key_changes_record :
    "ID" ∉ fieldList.map Field.jsonName ∧
    (∀ P : Platform,
      (Unmarshal P (some (JSON.object [("ID", JSON.number (some 2))]))).1.ID = 2 ∧
      (Unmarshal P (some (JSON.object []))).1.ID = 0) := by
  refine ⟨by decide, ?_⟩
  intro P
  exact ⟨rfl, rfl⟩

/-- C8 amended: for every JSON object, a field that no key of the object selects (by an
exact match with its tag or, failing that, by a match of the folded names) decodes to its
zero value; the decode returns no error when every member that selects a field holds
`null` or a value of that field's kind, whichever fields are missing; and a member whose
key selects no field, added anywhere, changes neither the decoded record nor the error. -/
theorem unmarshal_lenient (P : Platform) (members : List (String × JSON)) :
    (∀ f : Field, (∀ kv ∈ members, lookupField P kv.1 ≠ some f) →
      f.isZeroIn (Unmarshal P (some (JSON.object members))).1) ∧
    ((∀ kv ∈ members, ∀ f, lookupField P kv.1 = some f → f.fits kv.2 = true) →
      (Unmarshal P (some (JSON.object members))).2 = none) ∧
    (∀ (pre post : List (String × JSON)) (key : String) (v : JSON),
      members = pre ++ post → lookupField P key = none →
      Unmarshal P (some (JSON.object (pre ++ (key, v) :: post))) =
        Unmarshal P (some (JSON.object members))) := by
  refine ⟨?_, ?_, ?_⟩
  · intro f habs
    apply decodeMembers_keeps_zero P f members _ habs
    cases f <;> rfl
  · intro hfit
    exact decodeMembers_no_error P members _ hfit
  · intro pre post key v hm hkey
    subst hm
    exact decodeMembers_skip P pre post key v _ hkey

/-- Witness of C8 amended: an object with only `id` and an unknown key leaves `expired`
at `false`, decodes without error, and decodes as it does without the unknown key. -/
theorem unmarshal_lenient_witness :
    (Unmarshal samplePlatform (some (JSON.object
        [("id", JSON.number (some 7)), ("plan", JSON.string "ultimate")]))).1.Expired = false ∧
    (Unmarshal samplePlatform (some (JSON.object
        [("id", JSON.number (some 7)), ("plan", JSON.string "ultimate")]))).2 = none ∧
    Unmarshal samplePlatform (some (JSON.object
        ([("id", JSON.number (some 7))] ++ ("plan", JSON.string "ultimate") :: []))) =
      Unmarshal samplePlatform (some (JSON.object [("id", JSON.number (some 7))])) :=
  ⟨(unmarshal_lenient samplePlatform
      [("id", JSON.number (some 7)), ("plan", JSON.string "ultimate")]).1 Field.Expired
      (by decide),
   (unmarshal_lenient samplePlatform
      [("id", JSON.number (some 7)), ("plan", JSON.string "ultimate")]).2.1 (by decide),
   (unmarshal_lenient samplePlatform [("id", JSON.number (some 7))]).2.2
      [("id", JSON.number (some 7))] [] "plan" (JSON.string "ultimate") rfl (by decide)⟩

end GitlabExporter
